import Mathlib

/-!
Verification of the offline-first task synchronization layer.

Shallow embedding of the sync subsystem:
- `TaskData` and its operations follow `src/database/taskAdapter.ts`
  (the active expo-sqlite implementation).
- `SyncManager` logic (`syncTask`, `handleConflict`, `syncAll`,
  `processSyncQueue`, `addToQueue`) follows `src/services/syncManager.ts`.
- `handleUpdate` and `handleDelete` follow `src/app/task-detail.tsx`.
- The JSON codec for the image-reference list follows the
  `imageUrl` getter/setter (`JSON.stringify` of a string array and the
  string-array fragment of `JSON.parse`).

Remote calls are modelled by environment values describing the observable
outcome of each call (`createTaskOnServer` returns a response, returns null
on a connectivity failure, or throws; `updateTaskOnServer` returns a
response, returns null on not-found/connectivity, or throws), matching the
contract of the corresponding functions in `syncManager.ts`.  JavaScript
exceptions are modelled with `Except`, the error value carrying the task
state at the moment of the throw.  `Date.now()` is passed explicitly as a
`now : Nat` argument.  JavaScript string truthiness (`undefined` and `""`
are falsy) is modelled by `strTruthy`.
-/

namespace OfflineFirst

/-- `TaskStatus` from `src/database/models/Task.ts`. -/
inductive TaskStatus
  | pending
  | in_progress
  | done
  | cancelled
  deriving DecidableEq

/-- `SyncStatus` from `src/database/models/Task.ts`. -/
inductive SyncStatus
  | pending_sync
  | syncing
  | synced
  deriving DecidableEq

/-- `ConflictResolution` from `src/database/models/Task.ts`. -/
inductive ConflictResolution
  | client_wins
  | server_wins
  | manual
  deriving DecidableEq

/-- `TaskLocation` from `src/database/sqlite-db.ts`. -/
structure TaskLocation where
  lat : Rat
  lng : Rat
  address : String
  deriving DecidableEq

/-- `TaskData` from `src/database/sqlite-db.ts` (the persisted row). -/
structure TaskData where
  id : String
  title : String
  description : Option String
  status : TaskStatus
  sync_status : SyncStatus
  server_id : Option String
  server_status : Option TaskStatus
  conflict_resolution : Option ConflictResolution
  created_at : Nat
  updated_at : Nat
  synced_at : Option Nat
  price : Option Rat
  location_lat : Option Rat
  location_lng : Option Rat
  location_address : Option String
  image_url : Option String
  expires_at : Option Nat
  deriving DecidableEq

/-- JavaScript truthiness for an optional string: `undefined` and the empty
string are falsy. -/
def strTruthy : Option String → Bool
  | none => false
  | some s => s != ""

/-- `TaskAdapter.updateStatus` (taskAdapter.ts:98-110): set the status,
advance `updated_at` to now and reset a `synced` task to `pending_sync`. -/
def updateStatus (t : TaskData) (newStatus : TaskStatus) (now : Nat) : TaskData :=
  { t with
    status := newStatus
    updated_at := now
    sync_status :=
      if t.sync_status = SyncStatus.synced then SyncStatus.pending_sync
      else t.sync_status }

/-- `TaskAdapter.markAsSyncing` (taskAdapter.ts:112-116). -/
def markAsSyncing (t : TaskData) : TaskData :=
  { t with sync_status := SyncStatus.syncing }

/-- `TaskAdapter.markAsSynced` (taskAdapter.ts:118-130): set
`sync_status = synced`, stamp `synced_at`, and overwrite `server_id` /
`server_status` only when the arguments are truthy. -/
def markAsSynced (t : TaskData) (serverId : Option String)
    (serverStatus : Option TaskStatus) (now : Nat) : TaskData :=
  { t with
    sync_status := SyncStatus.synced
    synced_at := some now
    server_id := if strTruthy serverId then serverId else t.server_id
    server_status :=
      match serverStatus with
      | some s => some s
      | none => t.server_status }

/-- `TaskAdapter.resolveConflict` (taskAdapter.ts:132-146): record the
resolution tag, optionally overwrite the status, set
`sync_status = pending_sync` and advance `updated_at`. -/
def resolveConflict (t : TaskData) (resolution : ConflictResolution)
    (finalStatus : Option TaskStatus) (now : Nat) : TaskData :=
  { t with
    conflict_resolution := some resolution
    status :=
      match finalStatus with
      | some s => s
      | none => t.status
    sync_status := SyncStatus.pending_sync
    updated_at := now }

/-- Observable outcome of `createTaskOnServer` (syncManager.ts:112-154):
a `{id, status}` response, `null` on a connectivity failure, or a thrown
error. -/
inductive CreateResult
  | ok (id : String) (status : TaskStatus)
  | connNull
  | thrown
  deriving DecidableEq

/-- Observable outcome of `updateTaskOnServer` (syncManager.ts:156-204):
a `{status}` response, `null` on not-found or a connectivity failure, or a
thrown error. -/
inductive UpdateResult
  | ok (status : TaskStatus)
  | nullResult
  | thrown
  deriving DecidableEq

/-- Environment for one run of `syncTask`: the outcome of each potential
remote call, and the current clock. -/
structure SyncEnv where
  create : CreateResult
  update : UpdateResult
  conflictUpdate : UpdateResult
  now : Nat

/-- The branch structure of `SyncManager.handleConflict`
(syncManager.ts:206-219): the resolution and final status chosen for a
`(localStatus, serverStatus)` pair. -/
def conflictDecision (localStatus serverStatus : TaskStatus) :
    ConflictResolution × TaskStatus :=
  if serverStatus = TaskStatus.cancelled ∧ localStatus = TaskStatus.done then
    (ConflictResolution.client_wins, localStatus)
  else if localStatus = TaskStatus.cancelled ∧ serverStatus = TaskStatus.done then
    (ConflictResolution.server_wins, serverStatus)
  else
    (ConflictResolution.manual, localStatus)

/-- `SyncManager.handleConflict` (syncManager.ts:206-229).  Returns the
resulting task state together with the number of remote calls performed;
`Except.error` models a thrown exception in the `client_wins` push-back,
carrying the state at the throw. -/
def handleConflict (t : TaskData) (serverStatus : TaskStatus)
    (conflictUpdate : UpdateResult) (now : Nat) :
    Except (TaskData × Nat) (TaskData × Nat) :=
  let d := conflictDecision t.status serverStatus
  let t1 := resolveConflict t d.1 (some d.2) now
  if d.1 = ConflictResolution.client_wins then
    match conflictUpdate with
    | UpdateResult.thrown => Except.error (t1, 1)
    | _ => Except.ok (markAsSynced t1 t1.server_id (some d.2) now, 1)
  else if d.1 = ConflictResolution.server_wins then
    Except.ok (markAsSynced t1 t1.server_id (some serverStatus) now, 0)
  else
    Except.ok (t1, 0)

/-- State recorded on the entity by `handleConflict`, whether or not the
`client_wins` push-back threw afterwards. -/
def handleConflictState : Except (TaskData × Nat) (TaskData × Nat) → TaskData
  | Except.ok (t, _) => t
  | Except.error (t, _) => t

/-- The `try` body of `SyncManager.syncTask` (syncManager.ts:81-103):
mark syncing, then create (no `serverId`) or update (with `serverId`,
falling back to create on a `null` update result, or into conflict
handling on a genuine three-way status divergence). -/
def syncTaskBody (t : TaskData) (env : SyncEnv) :
    Except (TaskData × Nat) (TaskData × Nat) :=
  let t0 := markAsSyncing t
  if strTruthy t0.server_id then
    match env.update with
    | UpdateResult.thrown => Except.error (t0, 1)
    | UpdateResult.ok st =>
      if st ≠ t0.status ∧ t0.server_status.isSome ∧
          t0.server_status ≠ some t0.status then
        match handleConflict t0 st env.conflictUpdate env.now with
        | Except.ok (t1, c) => Except.ok (t1, 1 + c)
        | Except.error (t1, c) => Except.error (t1, 1 + c)
      else
        Except.ok (markAsSynced t0 t0.server_id (some st) env.now, 1)
    | UpdateResult.nullResult =>
      match env.create with
      | CreateResult.ok cid cst =>
        Except.ok (markAsSynced t0 (some cid) (some cst) env.now, 2)
      | CreateResult.connNull => Except.ok (t0, 2)
      | CreateResult.thrown => Except.error (t0, 2)
  else
    match env.create with
    | CreateResult.ok cid cst =>
      Except.ok (markAsSynced t0 (some cid) (some cst) env.now, 1)
    | CreateResult.connNull => Except.ok (t0, 1)
    | CreateResult.thrown => Except.error (t0, 1)

/-- `SyncManager.syncTask` (syncManager.ts:80-110): the body above wrapped
in the `catch` that forces `sync_status = pending_sync` on any thrown
error.  Returns the final task state and the number of remote calls. -/
def syncTask (t : TaskData) (env : SyncEnv) : TaskData × Nat :=
  match syncTaskBody t env with
  | Except.ok r => r
  | Except.error (te, c) => ({ te with sync_status := SyncStatus.pending_sync }, c)

/-- `SyncQueueItem` from `src/services/syncManager.ts` (lines 11-16).
The optional `data?: any` field is never populated or read anywhere in the
source, so it is omitted from the embedding. -/
structure SyncQueueItem where
  taskId : String
  action : String
  timestamp : Nat
  deriving DecidableEq

/-- `SyncManager.addToQueue` (syncManager.ts:280-289): read the persisted
queue (absent key modelled as `[]`), push the item, write it back. -/
def addToQueue (queue : List SyncQueueItem) (item : SyncQueueItem) :
    List SyncQueueItem :=
  queue ++ [item]

/-- Observable outcome of processing one queue item against the real API
(the `fetch` DELETE in syncManager.ts:250-256): success, a thrown
connectivity-class error, or any other thrown error. -/
inductive ItemOutcome
  | ok
  | connError
  | otherError
  deriving DecidableEq

/-- The per-item `try`/`catch` of the drain loop in
`SyncManager.processSyncQueue` (syncManager.ts:243-268).  Returns whether
the item is retained in `remainingQueue`, and the number of remote delete
calls attempted for it.  A `delete` item with a truthy `taskId` is skipped
with `continue` under the mock API (no remote call), otherwise the DELETE
is attempted; both a connectivity-class and any other thrown error land in
the `catch`, which pushes the item onto `remainingQueue`.  Any other item
does nothing in the `try` body and is never retained. -/
def processQueueItem (useMock : Bool) (outcome : SyncQueueItem → ItemOutcome)
    (item : SyncQueueItem) : Bool × Nat :=
  if item.action = "delete" ∧ item.taskId ≠ "" then
    if useMock then (false, 0)
    else
      match outcome item with
      | ItemOutcome.ok => (false, 1)
      | ItemOutcome.connError => (true, 1)
      | ItemOutcome.otherError => (true, 1)
  else (false, 0)

/-- The `for` loop of `SyncManager.processSyncQueue` (syncManager.ts:243-268):
builds `remainingQueue` in iteration order and counts remote delete calls. -/
def processQueueLoop (useMock : Bool) (outcome : SyncQueueItem → ItemOutcome) :
    List SyncQueueItem → List SyncQueueItem × Nat
  | [] => ([], 0)
  | item :: rest =>
    let r := processQueueItem useMock outcome item
    let rec' := processQueueLoop useMock outcome rest
    ((if r.1 then [item] else []) ++ rec'.1, r.2 + rec'.2)

/-- `SyncManager.processSyncQueue` (syncManager.ts:231-278): no-op when
offline, otherwise drain the queue; the persisted queue afterwards is
`remainingQueue` (the key is removed when it is empty, which we model as
the empty list). -/
def processSyncQueue (isOnline useMock : Bool)
    (queue : List SyncQueueItem) (outcome : SyncQueueItem → ItemOutcome) :
    List SyncQueueItem × Nat :=
  if isOnline then processQueueLoop useMock outcome queue
  else (queue, 0)

/-- Eligibility filter of the `syncAll` loop (syncManager.ts:66). -/
def eligible (t : TaskData) : Bool :=
  t.sync_status == SyncStatus.pending_sync || t.sync_status == SyncStatus.syncing

/-- The `for` loop of `syncAll` (syncManager.ts:65-69): each task in list
order is synced when eligible (the environment for the task at absolute
position `i` is `envs i`), and left untouched otherwise.  Returns the new
task list and the total number of remote calls. -/
def syncTasksFrom (envs : Nat → SyncEnv) :
    Nat → List TaskData → List TaskData × Nat
  | _, [] => ([], 0)
  | i, t :: ts =>
    let r := if eligible t then syncTask t (envs i) else (t, 0)
    let rest := syncTasksFrom envs (i + 1) ts
    (r.1 :: rest.1, r.2 + rest.2)

/-- In-memory state of the `SyncManager` singleton together with the local
store and the persisted queue. -/
structure EngineState where
  isOnline : Bool
  isSyncing : Bool
  tasks : List TaskData
  queue : List SyncQueueItem
  deriving DecidableEq

/-- Result of one `syncAll` call: the final state, the number of remote
calls performed, and the number of `notifyListeners()` invocations. -/
structure SyncAllResult where
  state : EngineState
  remoteCalls : Nat
  notifies : Nat
  deriving DecidableEq

/-- `SyncManager.syncAll` (syncManager.ts:51-78): return immediately when
already syncing or offline; otherwise set the syncing flag and notify,
sync every eligible task in order, drain the queue, and in `finally`
clear the flag and notify again. -/
def syncAll (s : EngineState) (envs : Nat → SyncEnv) (useMock : Bool)
    (outcome : SyncQueueItem → ItemOutcome) : SyncAllResult :=
  if s.isSyncing || !s.isOnline then
    { state := s, remoteCalls := 0, notifies := 0 }
  else
    let tr := syncTasksFrom envs 0 s.tasks
    let qr := processSyncQueue s.isOnline useMock s.queue outcome
    { state := { s with tasks := tr.1, queue := qr.1, isSyncing := false }
      remoteCalls := tr.2 + qr.2
      notifies := 2 }

/-- `handleDelete` in `src/app/task-detail.tsx` (lines 245-279), the
confirmed-delete branch: destroy the task locally and, when it has a
truthy `serverId`, enqueue one `delete` queue item carrying that
`serverId`. -/
def handleDelete (tasks : List TaskData) (queue : List SyncQueueItem)
    (t : TaskData) (now : Nat) : List TaskData × List SyncQueueItem :=
  let tasks' := tasks.filter (fun x => x.id != t.id)
  match t.server_id with
  | some sid =>
    if sid ≠ "" then
      (tasks', addToQueue queue { taskId := sid, action := "delete", timestamp := now })
    else (tasks', queue)
  | none => (tasks', queue)

/-- Lowercase hexadecimal digit, as produced by `JSON.stringify` for
control-character escapes. -/
def hexDigitChar (n : Nat) : Char :=
  if n < 10 then Char.ofNat (48 + n) else Char.ofNat (87 + n)

/-- `JSON.stringify` escaping of one character inside a string literal:
quote, backslash and the short control escapes, `\u00XX` for the remaining
control characters, everything else verbatim. -/
def jsonEscapeChar (c : Char) : List Char :=
  if c = '"' then ['\\', '"']
  else if c = '\\' then ['\\', '\\']
  else if c = Char.ofNat 8 then ['\\', 'b']
  else if c = Char.ofNat 9 then ['\\', 't']
  else if c = Char.ofNat 10 then ['\\', 'n']
  else if c = Char.ofNat 12 then ['\\', 'f']
  else if c = Char.ofNat 13 then ['\\', 'r']
  else if c.toNat < 32 then
    ['\\', 'u', '0', '0', hexDigitChar (c.toNat / 16), hexDigitChar (c.toNat % 16)]
  else [c]

/-- `JSON.stringify` body of a string literal. -/
def jsonEscapeString (s : List Char) : List Char :=
  (s.map jsonEscapeChar).flatten

/-- A complete `JSON.stringify` string literal. -/
def jsonQuoteString (s : List Char) : List Char :=
  '"' :: jsonEscapeString s ++ ['"']

/-- Comma-separated element list of a stringified string array. -/
def jsonArrayBody : List (List Char) → List Char
  | [] => []
  | [s] => jsonQuoteString s
  | s :: rest => jsonQuoteString s ++ ',' :: jsonArrayBody rest

/-- `JSON.stringify` of an array of strings. -/
def jsonStringifyArray (xs : List (List Char)) : List Char :=
  '[' :: jsonArrayBody xs ++ [']']

/-- The text written to the `image_url` column by the `imageUrl` setter
for an array value (taskAdapter.ts:66-72). -/
def stringifyStringArray (xs : List String) : String :=
  ⟨jsonStringifyArray (xs.map String.data)⟩

/-- Value of one hexadecimal digit, as accepted by `JSON.parse` in a
`\uXXXX` escape. -/
def hexVal (c : Char) : Option Nat :=
  if '0' ≤ c ∧ c ≤ '9' then some (c.toNat - 48)
  else if 'a' ≤ c ∧ c ≤ 'f' then some (c.toNat - 87)
  else if 'A' ≤ c ∧ c ≤ 'F' then some (c.toNat - 55)
  else none

/-- Prepend a parsed character to a string-body parse result. -/
def consChar (c : Char) :
    Option (List Char × List Char) → Option (List Char × List Char)
  | some (s, r) => some (c :: s, r)
  | none => none

/-- `JSON.parse` of the body of a string literal (the input starts just
after the opening quote): consume characters and escapes until the closing
quote, rejecting raw control characters, and return the decoded string
with the remaining input. -/
def parseStringBody : List Char → Option (List Char × List Char)
  | [] => none
  | c :: rest =>
    if c = '"' then some ([], rest)
    else if c = '\\' then
      match rest with
      | [] => none
      | e :: rest2 =>
        if e = '"' then consChar '"' (parseStringBody rest2)
        else if e = '\\' then consChar '\\' (parseStringBody rest2)
        else if e = '/' then consChar '/' (parseStringBody rest2)
        else if e = 'b' then consChar (Char.ofNat 8) (parseStringBody rest2)
        else if e = 'f' then consChar (Char.ofNat 12) (parseStringBody rest2)
        else if e = 'n' then consChar (Char.ofNat 10) (parseStringBody rest2)
        else if e = 'r' then consChar (Char.ofNat 13) (parseStringBody rest2)
        else if e = 't' then consChar (Char.ofNat 9) (parseStringBody rest2)
        else if e = 'u' then
          match rest2 with
          | h1 :: h2 :: h3 :: h4 :: rest3 =>
            match hexVal h1, hexVal h2, hexVal h3, hexVal h4 with
            | some a, some b, some v, some d =>
              consChar (Char.ofNat (((a * 16 + b) * 16 + v) * 16 + d))
                (parseStringBody rest3)
            | _, _, _, _ => none
          | _ => none
        else none
    else if c.toNat < 32 then none
    else consChar c (parseStringBody rest)

/-- `JSON.parse` of the elements of a non-empty string array (the input
starts just after `[`): a string literal, then either `]` or `,` and more
elements.  The fuel argument bounds the number of elements; it is
instantiated with the input length, which suffices since every element
consumes at least one character. -/
def parseElems : Nat → List Char → Option (List (List Char) × List Char)
  | 0, _ => none
  | fuel + 1, l =>
    match l with
    | [] => none
    | c :: rest =>
      if c = '"' then
        match parseStringBody rest with
        | some (s, rest1) =>
          match rest1 with
          | [] => none
          | d :: rest2 =>
            if d = ']' then some ([s], rest2)
            else if d = ',' then
              match parseElems fuel rest2 with
              | some (ss, rest3) => some (s :: ss, rest3)
              | none => none
            else none
        | none => none
      else none

/-- `JSON.parse` restricted to its behaviour on arrays of strings, the
only JSON documents the `imageUrl` setter ever writes: `some` exactly when
the whole input is a valid string-array document (whitespace-free, as
`JSON.stringify` emits). Any other input — including valid JSON that is
not an array of strings — is `none`, which the getter maps to the same
raw-string fallback the source uses for both a parse error and a
non-array parse. -/
def jsonParseStringArray (l : List Char) : Option (List (List Char)) :=
  match l with
  | [] => none
  | c :: rest =>
    if c = '[' then
      if rest = [']'] then some []
      else
        match parseElems rest.length rest with
        | some (ss, rest1) => if rest1 = [] then some ss else none
        | none => none
    else none

/-- The `string | string[] | undefined` value read or written through the
`imageUrl` accessor pair (taskAdapter.ts:56-72). -/
inductive ImageUrlValue
  | undef
  | single (s : String)
  | arr (xs : List String)
  deriving DecidableEq

/-- The `imageUrl` setter (taskAdapter.ts:66-72): an array is stored as
its `JSON.stringify` text, a single string verbatim, `undefined` clears
the column. -/
def setImageUrl (t : TaskData) (v : ImageUrlValue) : TaskData :=
  match v with
  | ImageUrlValue.arr xs => { t with image_url := some (stringifyStringArray xs) }
  | ImageUrlValue.single s => { t with image_url := some s }
  | ImageUrlValue.undef => { t with image_url := none }

/-- The `imageUrl` getter (taskAdapter.ts:56-65): a falsy column (absent
or empty) reads as `undefined`; otherwise the text is `JSON.parse`d and
returned as an array when that yields an array, with the raw string as
fallback when the parse fails or yields a non-array. -/
def getImageUrl (t : TaskData) : ImageUrlValue :=
  match t.image_url with
  | none => ImageUrlValue.undef
  | some s =>
    if s = "" then ImageUrlValue.undef
    else
      match jsonParseStringArray s.data with
      | some xs => ImageUrlValue.arr (xs.map (fun l => (⟨l⟩ : String)))
      | none => ImageUrlValue.single s

/-- The JavaScript `String.prototype.trim` whitespace class (the common
members; the full class also has the other Unicode space separators,
which never appear in this code path). -/
def jsIsWhitespace (c : Char) : Bool :=
  c = ' ' || c = Char.ofNat 9 || c = Char.ofNat 10 || c = Char.ofNat 11 ||
    c = Char.ofNat 12 || c = Char.ofNat 13 || c = Char.ofNat 0xa0

/-- JavaScript `String.prototype.trim`: strip leading and trailing
whitespace. -/
def jsTrim (s : String) : String :=
  ⟨((s.data.dropWhile jsIsWhitespace).reverse.dropWhile jsIsWhitespace).reverse⟩

/-- The location value chosen by `handleUpdate` in `task-detail.tsx`
(lines 208-214): keep the location when it has a non-blank address, or
when either coordinate is non-zero; clear it otherwise. -/
def chooseLocation (location : Option TaskLocation) : Option TaskLocation :=
  match location with
  | some l =>
    if l.address ≠ "" ∧ jsTrim l.address ≠ "" then some l
    else if l.lat ≠ 0 ∨ l.lng ≠ 0 then some l
    else none
  | none => none

/-- Write an optional location through the `location` setter
(taskAdapter.ts:45-55). -/
def setLocation (t : TaskData) (v : Option TaskLocation) : TaskData :=
  match v with
  | some l =>
    { t with
      location_lat := some l.lat
      location_lng := some l.lng
      location_address := some l.address }
  | none =>
    { t with
      location_lat := none
      location_lng := none
      location_address := none }

/-- `handleUpdate` in `src/app/task-detail.tsx` (lines 195-220), the
`task.update` closure: rejected without changes when the trimmed title is
empty, otherwise title/description/status/images/location are written,
`updated_at` advances to now, and a `synced` task is reset to
`pending_sync`. -/
def handleUpdate (t : TaskData) (title description : String)
    (currentStatus : TaskStatus) (imageUris : List String)
    (location : Option TaskLocation) (now : Nat) : TaskData :=
  if jsTrim title = "" then t
  else
    let t1 := setLocation
      { t with
        title := jsTrim title
        description :=
          if jsTrim description = "" then none else some (jsTrim description)
        status := currentStatus
        image_url :=
          if imageUris.length > 0 then some (stringifyStringArray imageUris)
          else none }
      (chooseLocation location)
    { t1 with
      updated_at := now
      sync_status :=
        if t.sync_status = SyncStatus.synced then SyncStatus.pending_sync
        else t.sync_status }

/-- A concrete task row, used to instantiate the theorems below. -/
def sampleTask : TaskData :=
  { id := "task_1"
    title := "Audit 1"
    description := none
    status := TaskStatus.pending
    sync_status := SyncStatus.pending_sync
    server_id := none
    server_status := none
    conflict_resolution := none
    created_at := 0
    updated_at := 0
    synced_at := none
    price := none
    location_lat := none
    location_lng := none
    location_address := none
    image_url := none
    expires_at := none }

/-! ### Lemmas about the JSON string-array codec -/

theorem hexVal_hexDigitChar (n : Nat) (h : n < 16) :
    hexVal (hexDigitChar n) = some n := by
  interval_cases n <;> decide

theorem parseStringBody_escapeChar (c : Char) (tail : List Char) :
    parseStringBody (jsonEscapeChar c ++ tail) = consChar c (parseStringBody tail) := by
  by_cases h1 : c = '"'
  · subst h1
    rw [show jsonEscapeChar '"' = ['\\', '"'] from by decide, List.cons_append,
      List.singleton_append]
    conv_lhs => rw [parseStringBody.eq_def]
    simp
  by_cases h2 : c = '\\'
  · subst h2
    rw [show jsonEscapeChar '\\' = ['\\', '\\'] from by decide, List.cons_append,
      List.singleton_append]
    conv_lhs => rw [parseStringBody.eq_def]
    simp
  by_cases h3 : c = Char.ofNat 8
  · subst h3
    rw [show jsonEscapeChar (Char.ofNat 8) = ['\\', 'b'] from by decide,
      List.cons_append, List.singleton_append]
    conv_lhs => rw [parseStringBody.eq_def]
    simp
  by_cases h4 : c = Char.ofNat 9
  · subst h4
    rw [show jsonEscapeChar (Char.ofNat 9) = ['\\', 't'] from by decide,
      List.cons_append, List.singleton_append]
    conv_lhs => rw [parseStringBody.eq_def]
    simp
  by_cases h5 : c = Char.ofNat 10
  · subst h5
    rw [show jsonEscapeChar (Char.ofNat 10) = ['\\', 'n'] from by decide,
      List.cons_append, List.singleton_append]
    conv_lhs => rw [parseStringBody.eq_def]
    simp
  by_cases h6 : c = Char.ofNat 12
  · subst h6
    rw [show jsonEscapeChar (Char.ofNat 12) = ['\\', 'f'] from by decide,
      List.cons_append, List.singleton_append]
    conv_lhs => rw [parseStringBody.eq_def]
    simp
  by_cases h7 : c = Char.ofNat 13
  · subst h7
    rw [show jsonEscapeChar (Char.ofNat 13) = ['\\', 'r'] from by decide,
      List.cons_append, List.singleton_append]
    conv_lhs => rw [parseStringBody.eq_def]
    simp
  by_cases h8 : c.toNat < 32
  · have hesc : jsonEscapeChar c =
        ['\\', 'u', '0', '0', hexDigitChar (c.toNat / 16), hexDigitChar (c.toNat % 16)] := by
      unfold jsonEscapeChar
      rw [if_neg h1, if_neg h2, if_neg h3, if_neg h4, if_neg h5, if_neg h6,
        if_neg h7, if_pos h8]
    have hd1 : hexVal (hexDigitChar (c.toNat / 16)) = some (c.toNat / 16) :=
      hexVal_hexDigitChar _ (by omega)
    have hd2 : hexVal (hexDigitChar (c.toNat % 16)) = some (c.toNat % 16) :=
      hexVal_hexDigitChar _ (by omega)
    have hval : ((0 * 16 + 0) * 16 + c.toNat / 16) * 16 + c.toNat % 16 = c.toNat := by
      omega
    rw [hesc]
    conv_lhs => rw [parseStringBody.eq_def]
    simp only [List.cons_append, List.nil_append]
    simp [hd1, hd2, show hexVal '0' = some 0 from by decide,
      show c.toNat / 16 * 16 + c.toNat % 16 = c.toNat from by omega,
      hval, Char.ofNat_toNat]
  · have hesc : jsonEscapeChar c = [c] := by
      unfold jsonEscapeChar
      rw [if_neg h1, if_neg h2, if_neg h3, if_neg h4, if_neg h5, if_neg h6,
        if_neg h7, if_neg h8]
    rw [hesc, List.singleton_append]
    conv_lhs => rw [parseStringBody.eq_def]
    simp [h1, h2, h8]

theorem parseStringBody_escape (s tail : List Char) :
    parseStringBody (jsonEscapeString s ++ '"' :: tail) = some (s, tail) := by
  induction s with
  | nil =>
    show parseStringBody ([] ++ '"' :: tail) = some ([], tail)
    rw [List.nil_append]
    conv_lhs => rw [parseStringBody.eq_def]
    simp
  | cons c cs ih =>
    have hexp : jsonEscapeString (c :: cs) = jsonEscapeChar c ++ jsonEscapeString cs := by
      simp [jsonEscapeString]
    rw [hexp, List.append_assoc, parseStringBody_escapeChar, ih]
    rfl

theorem parseElems_arrayBody (xs : List (List Char)) (tail : List Char)
    (fuel : Nat) (hne : xs ≠ []) (hfuel : xs.length ≤ fuel) :
    parseElems fuel (jsonArrayBody xs ++ ']' :: tail) = some (xs, tail) := by
  induction xs generalizing fuel tail with
  | nil => exact absurd rfl hne
  | cons x cs ih =>
    obtain ⟨f, rfl⟩ : ∃ f, fuel = f + 1 := by
      cases fuel with
      | zero => simp at hfuel
      | succ f => exact ⟨f, rfl⟩
    cases cs with
    | nil =>
      show parseElems (f + 1) (jsonQuoteString x ++ ']' :: tail) = some ([x], tail)
      have hq : jsonQuoteString x ++ ']' :: tail =
          '"' :: (jsonEscapeString x ++ '"' :: ']' :: tail) := by
        simp [jsonQuoteString]
      rw [hq]
      conv_lhs => rw [parseElems.eq_def]
      simp [parseStringBody_escape]
    | cons y ds =>
      have hb : jsonArrayBody (x :: y :: ds) ++ ']' :: tail =
          '"' :: (jsonEscapeString x ++ '"' :: ',' ::
            (jsonArrayBody (y :: ds) ++ ']' :: tail)) := by
        simp [jsonArrayBody, jsonQuoteString]
      rw [hb]
      conv_lhs => rw [parseElems.eq_def]
      simp [parseStringBody_escape, ih tail f (by simp) (by simp at hfuel ⊢; omega)]

theorem length_le_arrayBody (xs : List (List Char)) :
    xs.length ≤ (jsonArrayBody xs).length := by
  induction xs with
  | nil => simp [jsonArrayBody]
  | cons x cs ih =>
    cases cs with
    | nil => simp [jsonArrayBody, jsonQuoteString]
    | cons y ds =>
      simp only [jsonArrayBody, jsonQuoteString] at ih ⊢
      simp at ih ⊢
      omega

theorem arrayBody_head (xs : List (List Char)) (h : xs ≠ []) :
    ∃ t, jsonArrayBody xs = '"' :: t := by
  cases xs with
  | nil => exact absurd rfl h
  | cons x cs =>
    cases cs with
    | nil =>
      exact ⟨jsonEscapeString x ++ ['"'], by simp [jsonArrayBody, jsonQuoteString]⟩
    | cons y ds =>
      exact ⟨jsonEscapeString x ++ '"' :: ',' :: jsonArrayBody (y :: ds),
        by simp [jsonArrayBody, jsonQuoteString]⟩

theorem jsonParse_stringify (xs : List (List Char)) (hne : xs ≠ []) :
    jsonParseStringArray (jsonStringifyArray xs) = some xs := by
  obtain ⟨t, ht⟩ := arrayBody_head xs hne
  show jsonParseStringArray ('[' :: (jsonArrayBody xs ++ [']'])) = some xs
  simp only [jsonParseStringArray, if_pos rfl]
  have hneq : jsonArrayBody xs ++ [']'] ≠ [']'] := by
    rw [ht]
    intro hcontra
    simp at hcontra
  rw [if_neg hneq]
  have hlen : xs.length ≤ (jsonArrayBody xs ++ [']']).length := by
    have := length_le_arrayBody xs
    simp
    omega
  rw [show jsonArrayBody xs ++ [']'] = jsonArrayBody xs ++ ']' :: [] from rfl,
    parseElems_arrayBody xs [] _ hne hlen]
  simp

/-! ### Helper lemmas about the sync engine -/

/-- `USE_MOCK_API` from syncManager.ts:7, the shipped configuration. -/
def USE_MOCK_API : Bool := true

/-- The invariant of claim C3: a synced row has a truthy `server_id` and a
`synced_at` stamp. -/
def SyncedInv (t : TaskData) : Prop :=
  t.sync_status = SyncStatus.synced →
    strTruthy t.server_id = true ∧ t.synced_at.isSome = true

theorem syncedInv_of_not_synced {t : TaskData}
    (h : t.sync_status ≠ SyncStatus.synced) : SyncedInv t :=
  fun hs => absurd hs h

theorem syncedInv_markAsSynced (t : TaskData) (sid : Option String)
    (sst : Option TaskStatus) (now : Nat)
    (h : strTruthy sid = true ∨ strTruthy t.server_id = true) :
    SyncedInv (markAsSynced t sid sst now) := by
  intro _
  refine ⟨?_, rfl⟩
  show strTruthy (if strTruthy sid then sid else t.server_id) = true
  by_cases hsid : strTruthy sid = true
  · rw [if_pos hsid]; exact hsid
  · rw [if_neg (by simp [hsid])]
    rcases h with h | h
    · exact absurd h hsid
    · exact h

theorem conflictDecision_not_first (l s : TaskStatus)
    (h1 : ¬(s = TaskStatus.cancelled ∧ l = TaskStatus.done))
    (h2 : ¬(l = TaskStatus.cancelled ∧ s = TaskStatus.done)) :
    conflictDecision l s = (ConflictResolution.manual, l) := by
  unfold conflictDecision
  rw [if_neg h1, if_neg h2]

theorem handleConflict_manual (t : TaskData) (ss : TaskStatus)
    (cu : UpdateResult) (now : Nat)
    (h : conflictDecision t.status ss = (ConflictResolution.manual, t.status)) :
    handleConflict t ss cu now =
      Except.ok (resolveConflict t ConflictResolution.manual (some t.status) now, 0) := by
  unfold handleConflict
  rw [h]
  simp

theorem conflictDecision_fst_manual {l s : TaskStatus}
    (h : (conflictDecision l s).1 = ConflictResolution.manual) :
    conflictDecision l s = (ConflictResolution.manual, l) := by
  by_cases c1 : s = TaskStatus.cancelled ∧ l = TaskStatus.done
  · unfold conflictDecision at h
    rw [if_pos c1] at h
    simp at h
  by_cases c2 : l = TaskStatus.cancelled ∧ s = TaskStatus.done
  · unfold conflictDecision at h
    rw [if_neg c1, if_pos c2] at h
    simp at h
  · exact conflictDecision_not_first l s c1 c2

theorem syncedInv_handleConflict_ok (t0 : TaskData) (ss : TaskStatus)
    (cu : UpdateResult) (now : Nat) (t1 : TaskData) (c : Nat)
    (hsrv : strTruthy t0.server_id = true)
    (hr : handleConflict t0 ss cu now = Except.ok (t1, c)) : SyncedInv t1 := by
  simp only [handleConflict] at hr
  split at hr
  · split at hr
    · exact absurd hr (by simp)
    · injection hr with hr
      injection hr with hr1 hr2
      subst hr1
      exact syncedInv_markAsSynced _ _ _ _ (Or.inl (by simpa [resolveConflict] using hsrv))
  · split at hr
    · injection hr with hr
      injection hr with hr1 hr2
      subst hr1
      exact syncedInv_markAsSynced _ _ _ _ (Or.inl (by simpa [resolveConflict] using hsrv))
    · injection hr with hr
      injection hr with hr1 hr2
      subst hr1
      exact syncedInv_of_not_synced (by simp [resolveConflict])

theorem syncedInv_syncTaskBody_ok (t : TaskData) (env : SyncEnv)
    (t1 : TaskData) (c : Nat)
    (hcreate : ∀ cid cst, env.create = CreateResult.ok cid cst → cid ≠ "")
    (h : syncTaskBody t env = Except.ok (t1, c)) : SyncedInv t1 := by
  simp only [syncTaskBody] at h
  split at h
  · rename_i hsrv
    split at h
    · exact absurd h (by simp)
    · split at h
      · split at h
        · rename_i t1c cc heq
          injection h with h
          injection h with h1 h2
          subst h1
          exact syncedInv_handleConflict_ok _ _ _ _ _ _ hsrv heq
        · exact absurd h (by simp)
      · injection h with h
        injection h with h1 h2
        subst h1
        exact syncedInv_markAsSynced _ _ _ _ (Or.inl hsrv)
    · split at h
      · rename_i hupd cid cst heq
        injection h with h
        injection h with h1 h2
        subst h1
        exact syncedInv_markAsSynced _ _ _ _
          (Or.inl (by simp [strTruthy, hcreate cid cst heq]))
      · injection h with h
        injection h with h1 h2
        subst h1
        exact syncedInv_of_not_synced (by simp [markAsSyncing])
      · exact absurd h (by simp)
  · split at h
    · rename_i hsrv cid cst heq
      injection h with h
      injection h with h1 h2
      subst h1
      exact syncedInv_markAsSynced _ _ _ _
        (Or.inl (by simp [strTruthy, hcreate cid cst heq]))
    · injection h with h
      injection h with h1 h2
      subst h1
      exact syncedInv_of_not_synced (by simp [markAsSyncing])
    · exact absurd h (by simp)

theorem syncedInv_syncTask (t : TaskData) (env : SyncEnv)
    (hcreate : ∀ cid cst, env.create = CreateResult.ok cid cst → cid ≠ "") :
    SyncedInv (syncTask t env).1 := by
  unfold syncTask
  cases hb : syncTaskBody t env with
  | ok r =>
    obtain ⟨t1, c⟩ := r
    exact syncedInv_syncTaskBody_ok t env t1 c hcreate hb
  | error r =>
    obtain ⟨te, c⟩ := r
    refine syncedInv_of_not_synced ?_
    show ({ te with sync_status := SyncStatus.pending_sync } : TaskData).sync_status ≠
      SyncStatus.synced
    simp

/-- Whether the drain loop keeps an item in `remainingQueue`. -/
def itemRetained (useMock : Bool) (outcome : SyncQueueItem → ItemOutcome)
    (item : SyncQueueItem) : Bool :=
  (processQueueItem useMock outcome item).1

theorem processQueueLoop_fst (useMock : Bool)
    (outcome : SyncQueueItem → ItemOutcome) (q : List SyncQueueItem) :
    (processQueueLoop useMock outcome q).1 = q.filter (itemRetained useMock outcome) := by
  induction q with
  | nil => rfl
  | cons item rest ih =>
    simp only [processQueueLoop, itemRetained] at ih ⊢
    by_cases h : (processQueueItem useMock outcome item).1 <;>
      simp [h, List.filter_cons, ih, itemRetained]

theorem processQueueItem_mock (outcome : SyncQueueItem → ItemOutcome)
    (item : SyncQueueItem) : processQueueItem true outcome item = (false, 0) := by
  unfold processQueueItem
  split <;> rfl

theorem processQueueLoop_mock (outcome : SyncQueueItem → ItemOutcome)
    (q : List SyncQueueItem) : processQueueLoop true outcome q = ([], 0) := by
  induction q with
  | nil => rfl
  | cons item rest ih =>
    simp [processQueueLoop, processQueueItem_mock, ih]

theorem syncTasksFrom_getElem? (envs : Nat → SyncEnv) (ts : List TaskData)
    (i j : Nat) :
    ((syncTasksFrom envs i ts).1)[j]? =
      (ts[j]?).map
        (fun tk => if eligible tk then (syncTask tk (envs (i + j))).1 else tk) := by
  induction ts generalizing i j with
  | nil => simp [syncTasksFrom]
  | cons t rest ih =>
    cases j with
    | zero => simp [syncTasksFrom, apply_ite Prod.fst]
    | succ j =>
      simp only [syncTasksFrom, List.getElem?_cons_succ]
      rw [ih (i + 1) j, show i + 1 + j = i + (j + 1) from by omega]

/-! ### Concrete fixtures for witnesses -/

/-- A concrete remote environment: create succeeds with id `srv_9`. -/
def sampleEnv : SyncEnv :=
  { create := CreateResult.ok "srv_9" TaskStatus.pending
    update := UpdateResult.nullResult
    conflictUpdate := UpdateResult.nullResult
    now := 3 }

/-- A concrete task that has already been synced once. -/
def syncedTask : TaskData :=
  { sampleTask with
    sync_status := SyncStatus.synced
    server_id := some "srv_1"
    server_status := some TaskStatus.pending
    synced_at := some 2 }

/-- A concrete environment whose create call throws. -/
def envCreateThrown : SyncEnv :=
  { create := CreateResult.thrown
    update := UpdateResult.nullResult
    conflictUpdate := UpdateResult.nullResult
    now := 3 }

/-- A concrete engine state that is offline and idle. -/
def offlineEngine : EngineState :=
  { isOnline := false
    isSyncing := false
    tasks := [sampleTask]
    queue := [{ taskId := "srv_1", action := "delete", timestamp := 1 }] }

/-- A concrete engine state that is online and idle. -/
def onlineEngine : EngineState :=
  { isOnline := true
    isSyncing := false
    tasks := [sampleTask]
    queue := [] }

/-- A queue item whose remote delete hits a connectivity error. -/
def qItemConn : SyncQueueItem := { taskId := "s1", action := "delete", timestamp := 1 }

/-- A queue item whose remote delete succeeds. -/
def qItemOk : SyncQueueItem := { taskId := "s2", action := "delete", timestamp := 2 }

/-- A concrete per-item outcome: `s2` succeeds, everything else hits a
connectivity error. -/
def outcomeW : SyncQueueItem → ItemOutcome :=
  fun i => if i.taskId = "s2" then ItemOutcome.ok else ItemOutcome.connError

/-! ### Claims -/

/-- C1, counterexample: for the concrete task with local status `pending`,
stored `server_status = done` and an observed server status `done`, the
conflict is resolved `manual`, but the entity is left with
`sync_status = pending_sync` — not `synced` as the claim states — and it
stays `eligible` for the next sync pass, i.e. it is retried
automatically. -/
theorem claim1_counterexample :
    (handleConflictState (handleConflict
      { sampleTask with
        status := TaskStatus.pending
        sync_status := SyncStatus.syncing
        server_id := some "srv_1"
        server_status := some TaskStatus.done }
      TaskStatus.done UpdateResult.nullResult 7)).conflict_resolution =
        some ConflictResolution.manual ∧
    (handleConflictState (handleConflict
      { sampleTask with
        status := TaskStatus.pending
        sync_status := SyncStatus.syncing
        server_id := some "srv_1"
        server_status := some TaskStatus.done }
      TaskStatus.done UpdateResult.nullResult 7)).sync_status =
        SyncStatus.pending_sync ∧
    SyncStatus.pending_sync ≠ SyncStatus.synced ∧
    eligible (handleConflictState (handleConflict
      { sampleTask with
        status := TaskStatus.pending
        sync_status := SyncStatus.syncing
        server_id := some "srv_1"
        server_status := some TaskStatus.done }
      TaskStatus.done UpdateResult.nullResult 7)) = true := by
  decide

/-- C1, amended: after the Sync Engine resolves a status conflict with
resolution `manual`, the entity is left with `syncStatus = pending_sync`
(not `synced`), its local status unchanged and
`conflictResolution = manual`, and it remains eligible for — and is hence
retried on — subsequent sync passes. -/
theorem claim1_manual_conflict (t : TaskData) (ss : TaskStatus)
    (cu : UpdateResult) (now : Nat)
    (h : (conflictDecision t.status ss).1 = ConflictResolution.manual) :
    (handleConflictState (handleConflict t ss cu now)).sync_status =
      SyncStatus.pending_sync ∧
    (handleConflictState (handleConflict t ss cu now)).status = t.status ∧
    (handleConflictState (handleConflict t ss cu now)).conflict_resolution =
      some ConflictResolution.manual ∧
    eligible (handleConflictState (handleConflict t ss cu now)) = true := by
  rw [handleConflict_manual t ss cu now (conflictDecision_fst_manual h)]
  refine ⟨rfl, rfl, rfl, rfl⟩

/-- Witness for C1 (amended) at the concrete task of the counterexample. -/
theorem claim1_manual_conflict_witness :
    (handleConflictState (handleConflict
      { sampleTask with
        status := TaskStatus.pending
        sync_status := SyncStatus.syncing
        server_id := some "srv_1"
        server_status := some TaskStatus.done }
      TaskStatus.done UpdateResult.nullResult 7)).sync_status =
        SyncStatus.pending_sync :=
  (claim1_manual_conflict
    { sampleTask with
      status := TaskStatus.pending
      sync_status := SyncStatus.syncing
      server_id := some "srv_1"
      server_status := some TaskStatus.done }
    TaskStatus.done UpdateResult.nullResult 7 (by decide)).1

/-- C2: the conflict table is a deterministic total function of the
`(localStatus, serverStatus)` pair: `done`/`cancelled` resolves
`client_wins` keeping `done`; `cancelled`/`done` resolves `server_wins`
adopting `done`; every other mismatched pair resolves `manual` with the
local status unchanged — and `handleConflict` records exactly that
resolution and final status on the entity. -/
theorem claim2_conflict_table (t : TaskData) (ss : TaskStatus)
    (cu : UpdateResult) (now : Nat) :
    conflictDecision TaskStatus.done TaskStatus.cancelled =
      (ConflictResolution.client_wins, TaskStatus.done) ∧
    conflictDecision TaskStatus.cancelled TaskStatus.done =
      (ConflictResolution.server_wins, TaskStatus.done) ∧
    (t.status = TaskStatus.done → ss = TaskStatus.cancelled →
      (handleConflictState (handleConflict t ss cu now)).conflict_resolution =
        some ConflictResolution.client_wins ∧
      (handleConflictState (handleConflict t ss cu now)).status = TaskStatus.done) ∧
    (t.status = TaskStatus.cancelled → ss = TaskStatus.done →
      (handleConflictState (handleConflict t ss cu now)).conflict_resolution =
        some ConflictResolution.server_wins ∧
      (handleConflictState (handleConflict t ss cu now)).status = TaskStatus.done) ∧
    (t.status ≠ ss →
      ¬(t.status = TaskStatus.done ∧ ss = TaskStatus.cancelled) →
      ¬(t.status = TaskStatus.cancelled ∧ ss = TaskStatus.done) →
      (handleConflictState (handleConflict t ss cu now)).conflict_resolution =
        some ConflictResolution.manual ∧
      (handleConflictState (handleConflict t ss cu now)).status = t.status) := by
  refine ⟨by decide, by decide, ?_, ?_, ?_⟩
  · intro h1 h2
    subst h2
    have hd : conflictDecision t.status TaskStatus.cancelled =
        (ConflictResolution.client_wins, t.status) := by
      unfold conflictDecision
      rw [if_pos ⟨rfl, h1⟩]
    simp only [handleConflict, hd]
    cases cu <;>
      simp [handleConflictState, markAsSynced, resolveConflict, h1]
  · intro h1 h2
    subst h2
    have hd : conflictDecision t.status TaskStatus.done =
        (ConflictResolution.server_wins, TaskStatus.done) := by
      unfold conflictDecision
      rw [if_neg (by simp), if_pos ⟨h1, rfl⟩]
    simp only [handleConflict, hd]
    simp [handleConflictState, markAsSynced, resolveConflict]
  · intro _ hn1 hn2
    have hd := conflictDecision_not_first t.status ss
      (fun hp => hn1 ⟨hp.2, hp.1⟩) hn2
    rw [handleConflict_manual t ss cu now hd]
    exact ⟨rfl, rfl⟩

/-- Witness for C2: all three rows of the table exercised on concrete
tasks. -/
theorem claim2_conflict_table_witness :
    ((handleConflictState (handleConflict { sampleTask with status := TaskStatus.done }
        TaskStatus.cancelled UpdateResult.nullResult 5)).conflict_resolution =
      some ConflictResolution.client_wins ∧
     (handleConflictState (handleConflict { sampleTask with status := TaskStatus.done }
        TaskStatus.cancelled UpdateResult.nullResult 5)).status = TaskStatus.done) ∧
    ((handleConflictState (handleConflict { sampleTask with status := TaskStatus.cancelled }
        TaskStatus.done UpdateResult.nullResult 5)).conflict_resolution =
      some ConflictResolution.server_wins ∧
     (handleConflictState (handleConflict { sampleTask with status := TaskStatus.cancelled }
        TaskStatus.done UpdateResult.nullResult 5)).status = TaskStatus.done) ∧
    ((handleConflictState (handleConflict sampleTask
        TaskStatus.done UpdateResult.nullResult 5)).conflict_resolution =
      some ConflictResolution.manual ∧
     (handleConflictState (handleConflict sampleTask
        TaskStatus.done UpdateResult.nullResult 5)).status = sampleTask.status) :=
  ⟨(claim2_conflict_table { sampleTask with status := TaskStatus.done }
      TaskStatus.cancelled UpdateResult.nullResult 5).2.2.1 rfl rfl,
   (claim2_conflict_table { sampleTask with status := TaskStatus.cancelled }
      TaskStatus.done UpdateResult.nullResult 5).2.2.2.1 rfl rfl,
   (claim2_conflict_table sampleTask
      TaskStatus.done UpdateResult.nullResult 5).2.2.2.2 (by decide)
      (by decide) (by decide)⟩

/-- C3: `syncStatus = synced` implies `serverId` and `syncedAt` are set:
every operation that sets `synced` (`markAsSynced` as called from the
create path, the update path and both conflict paths of `syncTask`)
establishes the invariant, and no other operation (`updateStatus`,
`markAsSyncing`, `resolveConflict`, the edit-screen `handleUpdate`)
breaks it. -/
theorem claim3_synced_invariant (t : TaskData) (env : SyncEnv)
    (ns : TaskStatus) (r : ConflictResolution) (fs : Option TaskStatus)
    (sid : Option String) (sst : Option TaskStatus) (title desc : String)
    (cs : TaskStatus) (uris : List String) (loc : Option TaskLocation)
    (now : Nat) :
    ((∀ cid cst, env.create = CreateResult.ok cid cst → cid ≠ "") →
      SyncedInv (syncTask t env).1) ∧
    ((strTruthy sid = true ∨ strTruthy t.server_id = true) →
      SyncedInv (markAsSynced t sid sst now)) ∧
    SyncedInv (updateStatus t ns now) ∧
    SyncedInv (markAsSyncing t) ∧
    SyncedInv (resolveConflict t r fs now) ∧
    (SyncedInv t → SyncedInv (handleUpdate t title desc cs uris loc now)) := by
  refine ⟨syncedInv_syncTask t env, syncedInv_markAsSynced t sid sst now,
    ?_, ?_, ?_, ?_⟩
  · refine syncedInv_of_not_synced ?_
    show (if t.sync_status = SyncStatus.synced then SyncStatus.pending_sync
      else t.sync_status) ≠ SyncStatus.synced
    split
    · simp
    · assumption
  · exact syncedInv_of_not_synced (by simp [markAsSyncing])
  · exact syncedInv_of_not_synced (by simp [resolveConflict])
  · intro hInv
    unfold handleUpdate
    split
    · exact hInv
    · refine syncedInv_of_not_synced ?_
      show (if t.sync_status = SyncStatus.synced then SyncStatus.pending_sync
        else t.sync_status) ≠ SyncStatus.synced
      split
      · simp
      · assumption

/-- Witness for C3: the invariant after a fresh create against a server
that assigns id `srv_9`, and after a direct `markAsSynced`. -/
theorem claim3_synced_invariant_witness :
    SyncedInv (syncTask sampleTask sampleEnv).1 ∧
    SyncedInv (markAsSynced sampleTask (some "srv_9") none 3) :=
  ⟨(claim3_synced_invariant sampleTask sampleEnv TaskStatus.done
      ConflictResolution.manual none (some "srv_9") none "T" "" TaskStatus.done
      [] none 3).1
      (fun cid cst h => by
        injection h with h1 h2
        subst h1
        decide),
   (claim3_synced_invariant sampleTask sampleEnv TaskStatus.done
      ConflictResolution.manual none (some "srv_9") none "T" "" TaskStatus.done
      [] none 3).2.1 (Or.inl (by decide))⟩

/-- C4: `syncAll` called while already syncing or while offline returns
immediately: no remote calls, no listener notifications, and the whole
engine state — every task and the persisted queue — is unchanged. -/
theorem claim4_syncAll_noop (s : EngineState) (envs : Nat → SyncEnv)
    (useMock : Bool) (outcome : SyncQueueItem → ItemOutcome)
    (h : s.isSyncing = true ∨ s.isOnline = false) :
    syncAll s envs useMock outcome =
      { state := s, remoteCalls := 0, notifies := 0 } := by
  unfold syncAll
  rcases h with h | h <;> simp [h]

/-- Witness for C4 at a concrete offline engine state. -/
theorem claim4_syncAll_noop_witness :
    syncAll offlineEngine (fun _ => sampleEnv) USE_MOCK_API
        (fun _ => ItemOutcome.ok) =
      { state := offlineEngine, remoteCalls := 0, notifies := 0 } :=
  claim4_syncAll_noop offlineEngine (fun _ => sampleEnv) USE_MOCK_API
    (fun _ => ItemOutcome.ok) (Or.inr rfl)

/-- C5: a thrown (non-connectivity) error during the create or update step
of the per-entity sync is caught and the task is forced to `pending_sync`
(never left `syncing`); the batch processes every eligible task
independently of other tasks' failures, and at the end the engine-wide
syncing flag is cleared and listeners are notified. -/
theorem claim5_error_recovery (t : TaskData) (env : SyncEnv)
    (s : EngineState) (envs : Nat → SyncEnv) (useMock : Bool)
    (outcome : SyncQueueItem → ItemOutcome) :
    ((strTruthy t.server_id = false ∧ env.create = CreateResult.thrown) →
      (syncTask t env).1.sync_status = SyncStatus.pending_sync) ∧
    ((strTruthy t.server_id = true ∧ env.update = UpdateResult.thrown) →
      (syncTask t env).1.sync_status = SyncStatus.pending_sync) ∧
    (∀ te c, syncTaskBody t env = Except.error (te, c) →
      (syncTask t env).1.sync_status = SyncStatus.pending_sync) ∧
    (s.isSyncing = false → s.isOnline = true →
      (syncAll s envs useMock outcome).state.isSyncing = false ∧
      (syncAll s envs useMock outcome).notifies = 2 ∧
      ∀ j, ((syncAll s envs useMock outcome).state.tasks)[j]? =
        (s.tasks[j]?).map
          (fun tk => if eligible tk then (syncTask tk (envs j)).1 else tk)) := by
  have hgen : ∀ te c, syncTaskBody t env = Except.error (te, c) →
      (syncTask t env).1.sync_status = SyncStatus.pending_sync := by
    intro te c h
    unfold syncTask
    rw [h]
  refine ⟨?_, ?_, hgen, ?_⟩
  · rintro ⟨h1, h2⟩
    refine hgen (markAsSyncing t) 1 ?_
    simp only [syncTaskBody, markAsSyncing]
    simp [h1, h2, markAsSyncing]
  · rintro ⟨h1, h2⟩
    refine hgen (markAsSyncing t) 1 ?_
    simp only [syncTaskBody, markAsSyncing]
    simp [h1, h2, markAsSyncing]
  · intro hs ho
    unfold syncAll
    rw [if_neg (by simp [hs, ho])]
    refine ⟨rfl, rfl, ?_⟩
    intro j
    show ((syncTasksFrom envs 0 s.tasks).1)[j]? = _
    rw [syncTasksFrom_getElem?]
    simp

/-- Witness for C5: a create that throws leaves the concrete task
`pending_sync`, and a full `syncAll` run on a concrete online engine ends
with the flag cleared. -/
theorem claim5_error_recovery_witness :
    (syncTask sampleTask envCreateThrown).1.sync_status =
      SyncStatus.pending_sync ∧
    (syncAll onlineEngine (fun _ => sampleEnv) USE_MOCK_API
      (fun _ => ItemOutcome.ok)).state.isSyncing = false :=
  ⟨(claim5_error_recovery sampleTask envCreateThrown onlineEngine
      (fun _ => sampleEnv) USE_MOCK_API (fun _ => ItemOutcome.ok)).1
      ⟨rfl, rfl⟩,
   ((claim5_error_recovery sampleTask envCreateThrown onlineEngine
      (fun _ => sampleEnv) USE_MOCK_API (fun _ => ItemOutcome.ok)).2.2.2
      rfl rfl).1⟩

/-- C6: a user edit (`updateStatus` or the edit screen's `handleUpdate`)
resets `syncStatus` from `synced` to `pending_sync`, leaves an already
`pending_sync` task `pending_sync`, and advances `updated_at` to the time
of the edit. -/
theorem claim6_edit_resets (t : TaskData) (ns : TaskStatus) (now : Nat)
    (title desc : String) (cs : TaskStatus) (uris : List String)
    (loc : Option TaskLocation) :
    ((t.sync_status = SyncStatus.synced →
        (updateStatus t ns now).sync_status = SyncStatus.pending_sync) ∧
     (t.sync_status = SyncStatus.pending_sync →
        (updateStatus t ns now).sync_status = SyncStatus.pending_sync) ∧
     (updateStatus t ns now).updated_at = now) ∧
    (jsTrim title ≠ "" →
     ((t.sync_status = SyncStatus.synced →
        (handleUpdate t title desc cs uris loc now).sync_status =
          SyncStatus.pending_sync) ∧
      (t.sync_status = SyncStatus.pending_sync →
        (handleUpdate t title desc cs uris loc now).sync_status =
          SyncStatus.pending_sync) ∧
      (handleUpdate t title desc cs uris loc now).updated_at = now)) := by
  refine ⟨⟨?_, ?_, rfl⟩, ?_⟩
  · intro h
    show (if t.sync_status = SyncStatus.synced then SyncStatus.pending_sync
      else t.sync_status) = SyncStatus.pending_sync
    rw [if_pos h]
  · intro h
    show (if t.sync_status = SyncStatus.synced then SyncStatus.pending_sync
      else t.sync_status) = SyncStatus.pending_sync
    rw [if_neg (by simp [h]), h]
  · intro htitle
    refine ⟨?_, ?_, ?_⟩
    · intro h
      unfold handleUpdate
      rw [if_neg htitle]
      show (if t.sync_status = SyncStatus.synced then SyncStatus.pending_sync
        else t.sync_status) = SyncStatus.pending_sync
      rw [if_pos h]
    · intro h
      unfold handleUpdate
      rw [if_neg htitle]
      show (if t.sync_status = SyncStatus.synced then SyncStatus.pending_sync
        else t.sync_status) = SyncStatus.pending_sync
      rw [if_neg (by simp [h]), h]
    · unfold handleUpdate
      rw [if_neg htitle]

/-- Witness for C6 at a concrete synced task. -/
theorem claim6_edit_resets_witness :
    (updateStatus syncedTask TaskStatus.done 9).sync_status =
      SyncStatus.pending_sync ∧
    (handleUpdate syncedTask "T2" "" TaskStatus.done [] none 9).sync_status =
      SyncStatus.pending_sync :=
  ⟨(claim6_edit_resets syncedTask TaskStatus.done 9 "T2" "" TaskStatus.done
      [] none).1.1 rfl,
   ((claim6_edit_resets syncedTask TaskStatus.done 9 "T2" "" TaskStatus.done
      [] none).2 (by decide)).1 rfl⟩

/-- C7: deleting a task removes it from the store; with a truthy
`serverId` exactly one `delete` queue item carrying that `serverId` is
appended to the persisted queue, without one nothing is enqueued. -/
theorem claim7_delete_enqueue (tasks : List TaskData)
    (queue : List SyncQueueItem) (t : TaskData) (now : Nat) :
    (handleDelete tasks queue t now).1 = tasks.filter (fun x => x.id != t.id) ∧
    (∀ sid, t.server_id = some sid → sid ≠ "" →
      (handleDelete tasks queue t now).2 =
        queue ++ [{ taskId := sid, action := "delete", timestamp := now }]) ∧
    (strTruthy t.server_id = false →
      (handleDelete tasks queue t now).2 = queue) := by
  refine ⟨?_, ?_, ?_⟩
  · unfold handleDelete
    cases t.server_id with
    | none => rfl
    | some sid => by_cases h : sid = "" <;> simp [h]
  · intro sid hsid hne
    unfold handleDelete
    rw [hsid]
    simp [hne, addToQueue]
  · intro hf
    unfold handleDelete
    cases hs : t.server_id with
    | none => rfl
    | some sid =>
      have hempty : sid = "" := by
        rw [hs] at hf
        simpa [strTruthy] using hf
      simp [hempty]

/-- Witness for C7: deleting the concrete synced task (server id `srv_1`)
and the concrete unsynced one. -/
theorem claim7_delete_enqueue_witness :
    (handleDelete [syncedTask] [] syncedTask 4).2 =
      [] ++ [{ taskId := "srv_1", action := "delete", timestamp := 4 }] ∧
    (handleDelete [sampleTask] [] sampleTask 4).2 = [] :=
  ⟨(claim7_delete_enqueue [syncedTask] [] syncedTask 4).2.1 "srv_1" rfl
      (by decide),
   (claim7_delete_enqueue [sampleTask] [] sampleTask 4).2.2 rfl⟩

/-- C8: after a drain call the persisted queue is exactly the original
queue filtered to the retained items — so every retained item (in
particular one whose processing threw a connectivity-class error) keeps
its original position relative to all other retained items, and an item
whose processing ran to completion is absent. -/
theorem claim8_drain_order (queue : List SyncQueueItem)
    (outcome : SyncQueueItem → ItemOutcome) (useMock : Bool) :
    (processSyncQueue true useMock queue outcome).1 =
      queue.filter (itemRetained useMock outcome) ∧
    List.Sublist (processSyncQueue true useMock queue outcome).1 queue ∧
    (∀ item, item ∈ queue → item.action = "delete" → item.taskId ≠ "" →
      useMock = false → outcome item = ItemOutcome.connError →
      item ∈ (processSyncQueue true useMock queue outcome).1) ∧
    (∀ item, item ∈ queue → itemRetained useMock outcome item = false →
      item ∉ (processSyncQueue true useMock queue outcome).1) := by
  have hq : (processSyncQueue true useMock queue outcome).1 =
      queue.filter (itemRetained useMock outcome) := by
    unfold processSyncQueue
    rw [if_pos rfl, processQueueLoop_fst]
  refine ⟨hq, ?_, ?_, ?_⟩
  · rw [hq]
    exact List.filter_sublist _
  · intro item hmem ha ht hm ho
    subst hm
    rw [hq, List.mem_filter]
    refine ⟨hmem, ?_⟩
    simp [itemRetained, processQueueItem, ha, ht, ho]
  · intro item hmem hr
    rw [hq]
    intro hmemf
    rw [List.mem_filter] at hmemf
    exact absurd hmemf.2 (by simp [hr])

/-- Witness for C8: on the concrete two-item queue where `s2` succeeds and
`s1` hits a connectivity error, `s1` is retained and `s2` removed. -/
theorem claim8_drain_order_witness :
    qItemConn ∈ (processSyncQueue true false [qItemOk, qItemConn] outcomeW).1 ∧
    qItemOk ∉ (processSyncQueue true false [qItemOk, qItemConn] outcomeW).1 :=
  ⟨(claim8_drain_order [qItemOk, qItemConn] outcomeW false).2.2.1 qItemConn
      (by decide) rfl (by decide) rfl (by decide),
   (claim8_drain_order [qItemOk, qItemConn] outcomeW false).2.2.2 qItemOk
      (by decide) (by decide)⟩

/-- C9: writing a non-empty ordered list of image references through the
`imageUrl` setter (JSON text in the `image_url` column) and reading it
back through the getter yields the same strings in the same order. -/
theorem claim9_imageRefs_roundtrip (t : TaskData) (xs : List String)
    (hne : xs ≠ []) :
    getImageUrl (setImageUrl t (ImageUrlValue.arr xs)) = ImageUrlValue.arr xs := by
  show getImageUrl { t with image_url := some (stringifyStringArray xs) } =
    ImageUrlValue.arr xs
  unfold getImageUrl
  dsimp only
  have hmapne : xs.map String.data ≠ [] := by
    simpa using hne
  have hs : stringifyStringArray xs ≠ "" := by
    intro h
    have hd : (stringifyStringArray xs).data = ("" : String).data := by rw [h]
    have : jsonStringifyArray (xs.map String.data) = [] := hd
    simp [jsonStringifyArray] at this
  rw [if_neg hs]
  rw [show (stringifyStringArray xs).data =
    jsonStringifyArray (xs.map String.data) from rfl]
  rw [jsonParse_stringify _ hmapne]
  show ImageUrlValue.arr ((xs.map String.data).map (fun l => (⟨l⟩ : String))) =
    ImageUrlValue.arr xs
  rw [List.map_map,
    show ((fun l => (⟨l⟩ : String)) ∘ String.data) = id from funext (fun _ => rfl),
    List.map_id]

/-- Witness for C9 at a concrete two-element reference list (with a quote
and a backslash to exercise the escaping). -/
theorem claim9_imageRefs_roundtrip_witness :
    getImageUrl (setImageUrl sampleTask
      (ImageUrlValue.arr ["photo1.jpg", "a\"b\\c"])) =
      ImageUrlValue.arr ["photo1.jpg", "a\"b\\c"] :=
  claim9_imageRefs_roundtrip sampleTask ["photo1.jpg", "a\"b\\c"] (by decide)

/-- C10 (implicit): in the shipped configuration (`USE_MOCK_API = true`) a
drain call while online empties the persisted queue and performs zero
remote delete calls: every `delete` item is skipped via `continue` and
removed without any remote delete, every other item is removed without
processing, and nothing can throw — so queued deletions are never
propagated to the remote. -/
theorem claim10_mock_drain (queue : List SyncQueueItem)
    (outcome : SyncQueueItem → ItemOutcome) :
    processSyncQueue true USE_MOCK_API queue outcome = ([], 0) := by
  unfold processSyncQueue USE_MOCK_API
  rw [if_pos rfl, processQueueLoop_mock]

end OfflineFirst
